import Mathlib

/-!
Verification development for the csvclean utility (src/main.go).

The Go program is a streaming CSV field-encapsulation tool.  The
definitions below are a shallow embedding of its functions, translated
from the source: the record-processing loop of processFile, the
delimiter validation of parseDelimiter, the output-path derivation in
main, the file-descriptor manipulation of cleanupTempFile, and the
open/close/send event ordering of run.  Machine details that the claims
do not touch (actual OS errors, logging) are omitted; where a function
can fail or panic, the embedding returns Option.
-/

set_option autoImplicit false
set_option maxRecDepth 8192
set_option linter.unusedVariables false

namespace Csvclean

/-- Field encapsulation: models the statement
`fmt.Sprintf("%s%s%s", *encapsulatePtr, value, *encapsulatePtr)`
in processFile (main.go line 162). -/
def encapsulateField (e v : String) : String := e ++ v ++ e

/-- The per-record update in processFile (main.go lines 157-164): when the
counter equals 1 and header mode is on, the record passes through
unchanged; otherwise every field is wrapped in the encapsulation string. -/
def updatedLineFor (hdr : Bool) (e : String) (counter : Nat) (rec : List String) : List String :=
  if counter = 1 ∧ hdr = true then rec else rec.map (encapsulateField e)

/-- Model of the processFile loop (main.go lines 132-171) over the stream
of records the csv reader yields, for inputs that parse and writes that
succeed.  The state is the value of the global linesProcessed counter.
Each iteration reads a record, increments the counter, performs the
non-blocking stopChan check (the `stop` parameter gives the result of
that check when the counter equals n; a closed channel reads as true),
and otherwise writes the updated line joined by the delimiter with a
trailing newline (fmt.Fprintln).  Returns the written lines and the
final counter value.  Reaching the end of the records is io.EOF and a
nil return; observing stop returns nil without writing the record
just read. -/
def processFile (hdr : Bool) (e d : String) (stop : Nat → Bool) :
    Nat → List (List String) → List String × Nat
  | c, [] => ([], c)
  | c, rec :: rest =>
      if stop (c + 1) then ([], c + 1)
      else
        ((String.intercalate d (updatedLineFor hdr e (c + 1) rec) ++ "\n")
            :: (processFile hdr e d stop (c + 1) rest).1,
          (processFile hdr e d stop (c + 1) rest).2)

/-- Model of the exit-code choice in main (lines 286-303): the error
received from the run goroutine over errChan maps to exit status 1 when
non-nil and 0 when nil, on both the normal and the interrupted path. -/
def mainExit (err : Option String) : Nat :=
  match err with
  | none => 0
  | some _ => 1

theorem updatedLineFor_noHdr (e : String) (c : Nat) (r : List String) :
    updatedLineFor false e c r = r.map (encapsulateField e) := by
  simp [updatedLineFor]

theorem updatedLineFor_later (hdr : Bool) (e : String) (c : Nat) (hc : c ≠ 1) (r : List String) :
    updatedLineFor hdr e c r = r.map (encapsulateField e) := by
  simp [updatedLineFor, hc]

theorem processFile_noStop_noHdr (e d : String) :
    ∀ (recs : List (List String)) (c : Nat),
      processFile false e d (fun _ => false) c recs
        = (recs.map (fun r => String.intercalate d (r.map (encapsulateField e)) ++ "\n"),
            c + recs.length) := by
  intro recs
  induction recs with
  | nil => intro c; simp [processFile]
  | cons rec rest ih =>
      intro c
      simp [processFile, updatedLineFor_noHdr, ih (c + 1)]
      omega

theorem processFile_noStop_count (hdr : Bool) (e d : String) :
    ∀ (recs : List (List String)) (c : Nat),
      (processFile hdr e d (fun _ => false) c recs).2 = c + recs.length := by
  intro recs
  induction recs with
  | nil => intro c; simp [processFile]
  | cons rec rest ih =>
      intro c
      simp [processFile, ih (c + 1)]
      omega

theorem processFile_noStop_from (hdr : Bool) (e d : String) :
    ∀ (recs : List (List String)) (c : Nat), 1 ≤ c →
      processFile hdr e d (fun _ => false) c recs
        = (recs.map (fun r => String.intercalate d (r.map (encapsulateField e)) ++ "\n"),
            c + recs.length) := by
  intro recs
  induction recs with
  | nil => intro c _; simp [processFile]
  | cons rec rest ih =>
      intro c hc
      have h1 : c + 1 ≠ 1 := by omega
      simp [processFile, updatedLineFor_later hdr e (c + 1) h1, ih (c + 1) (by omega)]
      omega

theorem processFile_stopAfter_len (hdr : Bool) (e d : String) (K : Nat) :
    ∀ (recs : List (List String)) (c : Nat), c ≤ K →
      (processFile hdr e d (fun j => decide (K < j)) c recs).1.length
        = min (K - c) recs.length := by
  intro recs
  induction recs with
  | nil => intro c _; simp [processFile]
  | cons rec rest ih =>
      intro c hc
      by_cases h : K < c + 1
      · simp [processFile, h]
        omega
      · have hsucc : c + 1 ≤ K := by omega
        simp [processFile, h, ih (c + 1) hsucc]
        omega

/-- C5: with a valid single-character delimiter d and header mode
disabled, the output is one line per record, each line being the fields
of the record wrapped in the encapsulation string and joined by d with a
trailing newline; the number of lines equals the number of records. -/
theorem c5_encapsulated_output (e d : String) (recs : List (List String))
    (hd : d.length = 1) :
    processFile false e d (fun _ => false) 0 recs
      = (recs.map (fun r => String.intercalate d (r.map (encapsulateField e)) ++ "\n"),
          recs.length)
    ∧ (processFile false e d (fun _ => false) 0 recs).1.length = recs.length := by
  have h := processFile_noStop_noHdr e d recs 0
  constructor
  · simpa using h
  · rw [h]
    simp

/-- Witness for C5 at a concrete input. -/
theorem c5_encapsulated_output_witness :
    processFile false "\"" "," (fun _ => false) 0 [["a", "b"], ["c"]]
      = ([["a", "b"], ["c"]].map
          (fun r => String.intercalate "," (r.map (encapsulateField "\"")) ++ "\n"), 2)
    ∧ (processFile false "\"" "," (fun _ => false) 0 [["a", "b"], ["c"]]).1.length = 2 :=
  c5_encapsulated_output "\"" "," [["a", "b"], ["c"]] (by decide)

/-- C3: when the stop channel is closed once exactly K of the records
have been written (so the per-record check first observes it at counter
K+1), the output contains exactly K lines; the counter at the moment of
the interrupt, which main reports, equals K; and main exits with status
0 because the stopped run sends a nil error. -/
theorem c3_interrupted_run (hdr : Bool) (e d : String) (recs : List (List String))
    (K : Nat) (hK : K ≤ recs.length) :
    (processFile hdr e d (fun j => decide (K < j)) 0 recs).1.length = K
    ∧ (processFile hdr e d (fun _ => false) 0 (recs.take K)).2 = K
    ∧ mainExit none = 0 := by
  refine ⟨?_, ?_, rfl⟩
  · rw [processFile_stopAfter_len hdr e d K recs 0 (Nat.zero_le K)]
    omega
  · rw [processFile_noStop_count hdr e d (recs.take K) 0]
    simp
    omega

/-- Witness for C3 at a concrete input: two records, interrupted after one. -/
theorem c3_interrupted_run_witness :
    (processFile false "q" "," (fun j => decide (1 < j)) 0 [["a"], ["b"]]).1.length = 1
    ∧ (processFile false "q" "," (fun _ => false) 0 ([["a"], ["b"]].take 1)).2 = 1
    ∧ mainExit none = 0 :=
  c3_interrupted_run false "q" "," [["a"], ["b"]] 1 (by decide)

/-- Model of parseDelimiter (main.go lines 67-77): a one-rune string is
returned as-is; a two-rune string is mapped to a tab whenever its
SECOND rune is t (the code checks only rs[1], not rs[0]); anything else
is an error, modelled as none. -/
def parseDelimiter (s : String) : Option String :=
  match s.toList with
  | [_] => some s
  | [_, c] => if c = 't' then some "\t" else none
  | _ => none

/-- Splits a character list at every occurrence of sep; auxiliary for the
path functions below, acc holds the current chunk reversed. -/
def splitOnCharAux (sep : Char) : List Char → List Char → List (List Char)
  | acc, [] => [acc.reverse]
  | acc, c :: rest =>
      if c = sep then acc.reverse :: splitOnCharAux sep [] rest
      else splitOnCharAux sep (c :: acc) rest

/-- Element processing of Go path.Clean: empty and dot elements are
dropped, dotdot pops a previous element when possible (or is kept when
the path is not rooted), in stack form with the top at the head. -/
def pathCleanElems (rooted : Bool) (elems : List String) : List String :=
  (elems.foldl
    (fun st e =>
      if e = "" ∨ e = "." then st
      else if e = ".." then
        match st with
        | [] => if rooted then [] else [".."]
        | top :: rest => if top = ".." then ".." :: top :: rest else rest
      else e :: st) []).reverse

/-- Model of Go path.Clean: the empty path cleans to dot; otherwise the
path is split on slashes, empty and dot elements are removed, dotdot
elements resolve against the stack, and the result is rejoined,
prefixed with a slash when the input was rooted. -/
def pathClean (p : String) : String :=
  if p = "" then "."
  else
    let rooted := p.toList.head? = some '/'
    let parts := pathCleanElems rooted ((splitOnCharAux '/' [] p.toList).map String.mk)
    if rooted then "/" ++ String.intercalate "/" parts
    else if parts = [] then "." else String.intercalate "/" parts

/-- Model of path.Join applied to a single argument, as in main.go line
268: Join of one element is Clean of it, except that the empty string
joins to the empty string. -/
def pathJoin1 (p : String) : String :=
  if p = "" then "" else pathClean p

/-- Model of filepath.Base on slash-separated paths (Go path.Base /
filepath.Base on unix): the empty path gives dot, a path of only
slashes gives slash, otherwise the last element after trailing slashes
are removed. -/
def filepathBase (p : String) : String :=
  if p = "" then "."
  else
    let stripped := (p.toList.reverse.dropWhile (fun c => c = '/')).reverse
    if stripped = [] then "/"
    else String.mk ((stripped.reverse.takeWhile (fun c => c ≠ '/')).reverse)

/-- Model of filepath.Dir on slash-separated paths: everything up to and
including the final slash, cleaned; with no slash this is Clean of the
empty string, that is dot.  Used only by the spec-side rule below. -/
def filepathDir (p : String) : String :=
  pathClean (String.mk (p.toList.reverse.dropWhile (fun c => c ≠ '/')).reverse)

/-- Model of path.Join on two arguments, used only by the spec-side rule
below: empty elements are dropped, the rest joined by a slash and
cleaned; all empty gives the empty string. -/
def pathJoin2 (a b : String) : String :=
  let elems := [a, b].filter (fun e => e ≠ "")
  if elems = [] then "" else pathClean (String.intercalate "/" elems)

/-- Splits a character list at the first occurrence of sep, none when sep
does not occur; auxiliary for strings.SplitN with n = 2. -/
def splitOnFirst (sep : Char) : List Char → Option (List Char × List Char)
  | [] => none
  | c :: rest =>
      if c = sep then some ([], rest)
      else (splitOnFirst sep rest).map (fun p => (c :: p.1, p.2))

/-- Model of strings.SplitN(s, sep, 2) for a one-character separator: the
whole string when sep does not occur, otherwise the parts before and
after its first occurrence. -/
def stringsSplitN2 (s : String) (sep : Char) : List String :=
  match splitOnFirst sep s.toList with
  | none => [s]
  | some (a, b) => [String.mk a, String.mk b]

/-- Index of the first occurrence of pat in a character list, none when
absent; auxiliary for strings.Replace. -/
def firstIndexOf (pat : List Char) : List Char → Option Nat
  | [] => if pat = [] then some 0 else none
  | c :: rest =>
      if pat.isPrefixOf (c :: rest) then some 0
      else (firstIndexOf pat rest).map (fun i => i + 1)

/-- Model of strings.Replace(s, old, new, 1): replaces the first
occurrence of old in s by new, returning s unchanged when old does not
occur. -/
def stringsReplace1 (s old new : String) : String :=
  match firstIndexOf old.toList s.toList with
  | none => s
  | some i =>
      String.mk (s.toList.take i ++ new.toList ++ s.toList.drop (i + old.toList.length))

/-- The derived-output-path computation of main (main.go lines 266-276):
bits := strings.SplitN(basename, ".", 2); the path is
path.Join(strings.Replace(inputPath, basename, bits[0]+"_clean."+bits[1], 1)).
When the basename contains no dot, SplitN yields a single element and
the access bits[1] is out of range: the Go program panics, modelled
here as none. -/
def deriveOutput (inputPath basename : String) : Option String :=
  match stringsSplitN2 basename '.' with
  | [b0, b1] => some (pathJoin1 (stringsReplace1 inputPath basename (b0 ++ "_clean." ++ b1)))
  | _ => none

/-- Modelled from the spec: the derived output path rule as the spec
words it, input directory joined with the input basename with _clean
inserted before the first dot of the basename.  Stated for comparison
with deriveOutput, which is the rule the code implements. -/
def specDeriveOutput (p : String) : Option String :=
  match stringsSplitN2 (filepathBase p) '.' with
  | [b0, b1] => some (pathJoin2 (filepathDir p) (b0 ++ "_clean." ++ b1))
  | _ => none

/-- Outcome of fs.Parse in main (line 233), with flag.ContinueOnError:
nil, the sentinel flag.ErrHelp, or any other parse error. -/
inductive ParseOutcome
  | ok
  | helpRequested
  | parseFailed
deriving DecidableEq

/-- Result of the configuration phase of main (lines 233-276): exit with
a status code, a runtime panic, or proceeding to the run goroutine with
the resolved input path, output path and delimiter. -/
inductive SetupResult
  | exit (code : Nat)
  | panic
  | proceed (inputPath outputPath delim : String)
deriving DecidableEq

/-- The positional-argument and option validation of main after flag
parsing (lines 240-276): delimiter errors and over-long comment markers
exit with status 1; with no explicit output path and in-place mode off
the output path is derived (a basename without a dot panics). -/
def mainSetupPositional (input output rawDelim comment : String) (inPlace : Bool) :
    SetupResult :=
  match parseDelimiter rawDelim with
  | none => SetupResult.exit 1
  | some d =>
      if comment.length > 1 then SetupResult.exit 1
      else if output = "" ∧ inPlace = false then
        match deriveOutput input (filepathBase input) with
        | none => SetupResult.panic
        | some o => SetupResult.proceed input o d
      else SetupResult.proceed input output d

/-- Model of main from flag parsing through output-path resolution
(main.go lines 233-276).  fs.Parse uses ContinueOnError; main exits 0
only when the parse error is flag.ErrHelp and otherwise IGNORES a parse
error and falls through to positional-argument handling.  One
positional argument is the input path; two also give an output path;
any other count exits 1. -/
def mainSetup (parse : ParseOutcome) (args : List String) (rawDelim comment : String)
    (inPlace : Bool) : SetupResult :=
  if parse = ParseOutcome.helpRequested then SetupResult.exit 0
  else
    match args with
    | [a] => mainSetupPositional a "" rawDelim comment inPlace
    | [a, b] => mainSetupPositional a b rawDelim comment inPlace
    | _ => SetupResult.exit 1

/-- C2: parseDelimiter accepts the two-rune literal backslash-t as a tab,
but, because it tests only the second rune, it also accepts ANY
two-rune string ending in t, such as xt, mapping it to a tab and
proceeding with the run; only the remaining multi-rune strings are
rejected.  This contradicts the claim that every multi-character
delimiter other than backslash-t is rejected. -/
theorem c2_delimiter_second_rune_bug :
    parseDelimiter "\\t" = some "\t"
    ∧ parseDelimiter "xt" = some "\t"
    ∧ parseDelimiter "ab" = none
    ∧ mainSetup ParseOutcome.ok ["in.csv"] "xt" "" false
        = SetupResult.proceed "in.csv" "in_clean.csv" "\t" := by
  refine ⟨rfl, rfl, rfl, ?_⟩
  decide

/-- C10: when flag parsing fails with an error other than flag.ErrHelp,
main does not exit; the rest of main behaves exactly as if parsing had
succeeded, for every argument list and option combination. -/
theorem c10_parse_error_ignored (args : List String) (rawDelim comment : String)
    (inPlace : Bool) :
    mainSetup ParseOutcome.parseFailed args rawDelim comment inPlace
      = mainSetup ParseOutcome.ok args rawDelim comment inPlace := by
  simp [mainSetup]

theorem splitOnFirst_eq_none {sep : Char} :
    ∀ {l : List Char}, sep ∉ l → splitOnFirst sep l = none := by
  intro l
  induction l with
  | nil => intro _; rfl
  | cons c rest ih =>
      intro h
      have hc : ¬ c = sep := fun hcs => h (hcs ▸ List.mem_cons_self c rest)
      have hr : sep ∉ rest := fun hm => h (List.mem_cons_of_mem c hm)
      simp [splitOnFirst, hc, ih hr]

/-- C9: when the input basename contains no dot, the derived-output-path
computation indexes past the end of the SplitN result and the program
panics before any file is opened. -/
theorem c9_no_dot_basename_panics (p : String)
    (h : '.' ∉ (filepathBase p).toList) :
    mainSetup ParseOutcome.ok [p] "," "" false = SetupResult.panic := by
  have hn := splitOnFirst_eq_none h
  simp only [String.toList] at hn
  have hsplit : stringsSplitN2 (filepathBase p) '.' = [filepathBase p] := by
    simp [stringsSplitN2, String.toList, hn]
  simp [mainSetup, mainSetupPositional, parseDelimiter, deriveOutput, hsplit]

/-- Witness for C9 at a concrete input: a basename with no dot. -/
theorem c9_no_dot_basename_panics_witness :
    mainSetup ParseOutcome.ok ["data"] "," "" false = SetupResult.panic :=
  c9_no_dot_basename_panics "data" (by decide)

/-- C7 counterexample: for the input path data.csv/data.csv the code
replaces the FIRST substring occurrence of the basename, which here is
the directory component, producing data_clean.csv/data.csv, while the
claimed directory-join rule gives data.csv/data_clean.csv. -/
theorem c7_first_occurrence_counterexample :
    deriveOutput "data.csv/data.csv" (filepathBase "data.csv/data.csv")
        = some "data_clean.csv/data.csv"
    ∧ specDeriveOutput "data.csv/data.csv" = some "data.csv/data_clean.csv"
    ∧ ("data_clean.csv/data.csv" : String) ≠ "data.csv/data_clean.csv" := by
  refine ⟨?_, ?_, by decide⟩ <;> decide

/-- C7 (amended): the derived output path is the input path with the
first substring occurrence of the basename replaced by the basename
with _clean inserted before its first dot, then cleaned; this agrees
with the directory-join rule when the basename first occurs as the
final path component, and in particular /tmp/foo/data.csv resolves to
/tmp/foo/data_clean.csv. -/
theorem c7_derived_path :
    deriveOutput "/tmp/foo/data.csv" (filepathBase "/tmp/foo/data.csv")
        = some "/tmp/foo/data_clean.csv"
    ∧ specDeriveOutput "/tmp/foo/data.csv" = some "/tmp/foo/data_clean.csv"
    ∧ mainSetup ParseOutcome.ok ["/tmp/foo/data.csv"] "," "" false
        = SetupResult.proceed "/tmp/foo/data.csv" "/tmp/foo/data_clean.csv" "," := by
  refine ⟨?_, ?_, ?_⟩ <;> decide

/-- C4 (amended): with header mode enabled, the first output line is the
first records fields joined by the delimiter with no encapsulation
added, and every later line has each field wrapped in the encapsulation
string. -/
theorem c4_header_passthrough (e d : String) (h : List String) (rest : List (List String)) :
    processFile true e d (fun _ => false) 0 (h :: rest)
      = ((String.intercalate d h ++ "\n")
            :: rest.map (fun r => String.intercalate d (r.map (encapsulateField e)) ++ "\n"),
          rest.length + 1) := by
  have htail := processFile_noStop_from true e d rest 1 (by omega)
  simp [processFile, updatedLineFor, htail]
  omega

/-- One step of unquoted-field scanning in the encoding/csv reader used
by processFile (reader with default settings): characters are taken
until the comma or the end of the line; a bare quote inside a
non-quoted field is a parse error (none).  Returns the field and none
at end of record or some rest after a comma. -/
def csvUnquoted (comma : Char) : List Char → Option (List Char × Option (List Char))
  | [] => some ([], none)
  | c :: rest =>
      if c = comma then some ([], some rest)
      else if c = '"' then none
      else (csvUnquoted comma rest).map (fun p => (c :: p.1, p.2))

/-- Quoted-field scanning in the encoding/csv reader, after the opening
quote: a doubled quote is an escaped quote, a quote before the comma or
the line end closes the field, a quote before any other character is a
parse error, and a line ending inside the quotes (a record continuing
on the next line) is outside this single-line model and returns none. -/
def csvQuoted (comma : Char) : List Char → Option (List Char × Option (List Char))
  | [] => none
  | ['"'] => some ([], none)
  | '"' :: '"' :: rest => (csvQuoted comma rest).map (fun p => ('"' :: p.1, p.2))
  | '"' :: c :: rest => if c = comma then some ([], some rest) else none
  | c :: rest => (csvQuoted comma rest).map (fun p => (c :: p.1, p.2))

/-- Field-by-field scan of one record line, fuelled by the line length
(each field consumes at least the comma that follows it, so the fuel
never runs out on inputs the reader accepts). -/
def csvFieldsAux (comma : Char) : Nat → List Char → Option (List (List Char))
  | 0, _ => none
  | fuel + 1, cs =>
      let step :=
        match cs with
        | '"' :: rest => csvQuoted comma rest
        | _ => csvUnquoted comma cs
      match step with
      | none => none
      | some (f, none) => some [f]
      | some (f, some rest) => (csvFieldsAux comma fuel rest).map (fun fs => f :: fs)

/-- Model of one encoding/csv Reader.Read on a single line without
carriage returns or embedded newlines, default settings (LazyQuotes and
TrimLeadingSpace off, no Comment rune): the parsed fields, or none on a
parse error. -/
def csvParseLine (comma : Char) (cs : List Char) : Option (List String) :=
  (csvFieldsAux comma (cs.length + 1) cs).map (List.map (fun f => String.mk f))

/-- Splits file content into lines at newline characters, acc holding
the current line reversed; a final line without a trailing newline is
kept, a trailing newline adds no empty line. -/
def splitLinesAux : List Char → List Char → List (List Char)
  | acc, [] => if acc = [] then [] else [acc.reverse]
  | acc, '\n' :: rest => acc.reverse :: splitLinesAux [] rest
  | acc, c :: rest => splitLinesAux (c :: acc) rest

/-- Lines of file content as the encoding/csv reader sees them: split at
newlines, with blank lines skipped as the reader skips empty records. -/
def splitLines (cs : List Char) : List (List Char) :=
  (splitLinesAux [] cs).filter (fun l => l ≠ [])

/-- Parses every line of a record stream, failing when any line fails. -/
def parseRecords (comma : Char) : List (List Char) → Option (List (List String))
  | [] => some []
  | l :: rest =>
      match csvParseLine comma l, parseRecords comma rest with
      | some r, some rs => some (r :: rs)
      | _, _ => none

/-- Model of reading a whole input file with the encoding/csv reader:
its lines, each parsed as one record. -/
def csvParseContent (comma : Char) (content : String) : Option (List (List String)) :=
  parseRecords comma (splitLines content.toList)

/-- The full output content of a successful non-in-place run on the given
records: the concatenation of the lines processFile writes. -/
def processOutput (hdr : Bool) (e d : String) (recs : List (List String)) : String :=
  String.join (processFile hdr e d (fun _ => false) 0 recs).1

/-- A whole run of the tool on raw file content: the content is parsed by
the csv reader (comma is the rune handed to reader.Comma, d the
delimiter string used for joining) and processFile transforms the
records; none when the reader rejects the content. -/
def runOnContent (hdr : Bool) (e : String) (comma : Char) (d : String) (content : String) :
    Option (List String) :=
  (csvParseContent comma content).map
    (fun recs => (processFile hdr e d (fun _ => false) 0 recs).1)

theorem intercalate_singleton (d a : String) : String.intercalate d [a] = a := by
  simp [String.intercalate, String.intercalate.go]

/-- C4 counterexample: for the input whose first line is a quoted header
field followed by a bare one, the csv reader strips the quotes while
parsing, so with header mode on the first output line is the parsed
fields rejoined, not the original line verbatim. -/
theorem c4_header_not_verbatim_counterexample :
    runOnContent true "\"" ',' "," "\"a\",b\n" = some ["a,b\n"]
    ∧ ("a,b\n" : String) ≠ "\"a\",b\n" := by
  refine ⟨?_, ?_⟩ <;> decide

/-- C6 counterexample: with the default encapsulation character, the
double quote, re-running the tool on its own output does NOT double the
quoting: the csv reader strips the quotes the first run added, the
second run re-adds them, and the composed transformation equals a
single application at this input. -/
theorem c6_default_quote_idempotent_counterexample :
    processOutput false "\"" "," [["a"]] = "\"a\"\n"
    ∧ runOnContent false "\"" ',' "," (processOutput false "\"" "," [["a"]])
        = some (processFile false "\"" "," (fun _ => false) 0 [["a"]]).1 := by
  refine ⟨?_, ?_⟩ <;> decide

/-- C6 (amended): when the encapsulation string survives the csv reader
as literal field text (as any character other than the double quote
does, for example a single quote), re-running the tool on its own
output wraps each already-wrapped field again, producing doubled
quoting different from a single application: the transformer is not
idempotent for such encapsulation characters. -/
theorem c6_not_idempotent (v : String)
    (hsplit : splitLines ((encapsulateField "'" v ++ "\n").toList)
        = [(encapsulateField "'" v).toList])
    (hparse : csvParseLine ',' ((encapsulateField "'" v).toList)
        = some [encapsulateField "'" v]) :
    runOnContent false "'" ',' "," (encapsulateField "'" v ++ "\n")
        = some [encapsulateField "'" (encapsulateField "'" v) ++ "\n"]
    ∧ encapsulateField "'" (encapsulateField "'" v) ≠ encapsulateField "'" v := by
  constructor
  · have hparse2 := hparse
    simp only [String.toList] at hparse2
    simp only [runOnContent, csvParseContent]
    rw [hsplit]
    simp [parseRecords, hparse2, processFile, updatedLineFor, intercalate_singleton]
  · intro heq
    have hlen : (encapsulateField "'" (encapsulateField "'" v)).length
        = (encapsulateField "'" v).length := congrArg String.length heq
    have h1 : ("'" : String).length = 1 := rfl
    simp only [encapsulateField, String.length_append, h1] at hlen
    omega

/-- Witness for C6 at a concrete field value. -/
theorem c6_not_idempotent_witness :
    runOnContent false "'" ',' "," (encapsulateField "'" "a" ++ "\n")
        = some [encapsulateField "'" (encapsulateField "'" "a") ++ "\n"]
    ∧ encapsulateField "'" (encapsulateField "'" "a") ≠ encapsulateField "'" "a" :=
  c6_not_idempotent "a" (by decide) (by decide)

/-- An open os.File: its byte content (as characters) and the current
file offset.  Offsets matter here because os.File.Truncate changes the
size of a file but not its offset. -/
structure FD where
  content : List Char
  pos : Nat
deriving DecidableEq

/-- The NUL byte with which POSIX fills the gap when a write happens at
an offset beyond the end of the file. -/
def nulChar : Char := Char.ofNat 0

/-- Model of os.File.Seek(0, 0): the offset moves to the start. -/
def fdSeekStart (f : FD) : FD := { f with pos := 0 }

/-- Model of os.File.Truncate(0): the content becomes empty; the offset
is left where it was. -/
def fdTruncate0 (f : FD) : FD := { f with content := [] }

/-- Model of a write at the current offset: bytes before the offset are
kept, a gap beyond the end of the file reads back as NUL bytes, the
data overwrites from the offset on, and any remaining tail is kept. -/
def fdWrite (f : FD) (data : List Char) : FD :=
  { content :=
      f.content.take f.pos
        ++ List.replicate (f.pos - f.content.length) nulChar
        ++ data
        ++ f.content.drop (f.pos + data.length),
    pos := f.pos + data.length }

/-- Model of reading a file to the end from its current offset. -/
def fdReadToEnd (f : FD) : List Char × FD :=
  (f.content.drop f.pos, { f with pos := f.content.length })

/-- Model of io.Copy(dst, src): src is read to the end from its current
offset and the bytes are written to dst at its current offset. -/
def ioCopy (dst src : FD) : FD × FD :=
  let r := fdReadToEnd src
  (fdWrite dst r.1, r.2)

/-- Model of cleanupTempFile (main.go lines 174-186): seek the temp file
back to its start, truncate the input file to zero length, then copy
the temp file into the input file.  Returns the resulting
(input, temp) pair.  Note the input file offset is never rewound. -/
def cleanupTempFile (inFile outFile : FD) : FD × FD :=
  let outFile := fdSeekStart outFile
  let inFile := fdTruncate0 inFile
  ioCopy inFile outFile

/-- The state of the input file and the temp file when an in-place run
reaches cleanupTempFile, and the input content it leaves behind: the
csv reader has consumed the input file to the end (offset at its
length), the temp file holds the produced output with its offset at the
end of what was written. -/
def inPlaceFinal (inputContent out : String) : List Char :=
  let inF : FD := { content := inputContent.toList, pos := inputContent.toList.length }
  let outF : FD := { content := out.toList, pos := out.toList.length }
  ((cleanupTempFile inF outF).1).content

theorem cleanupTempFile_nul_padding (inC out : List Char) :
    ((cleanupTempFile { content := inC, pos := inC.length }
        { content := out, pos := out.length }).1).content
      = List.replicate inC.length nulChar ++ out := by
  simp [cleanupTempFile, ioCopy, fdReadToEnd, fdWrite, fdSeekStart, fdTruncate0]

/-- C1: the in-place cleanup does not rewind the input file offset after
the reader consumed it, so the copy-back writes past the truncated end
and the file is left with a NUL-byte prefix of the original length
followed by the output: for the two-byte input a-newline the final file
content is two NUL bytes then the four output bytes, different from,
and longer than, what a non-in-place run writes. -/
theorem c1_inplace_nul_prefix :
    processOutput false "\"" "," [["a"]] = "\"a\"\n"
    ∧ inPlaceFinal "a\n" (processOutput false "\"" "," [["a"]])
        = "\x00\x00\"a\"\n".toList
    ∧ inPlaceFinal "a\n" (processOutput false "\"" "," [["a"]])
        ≠ (processOutput false "\"" "," [["a"]]).toList
    ∧ (processOutput false "\"" "," [["a"]]).toList.length
        < (inPlaceFinal "a\n" (processOutput false "\"" "," [["a"]])).length := by
  refine ⟨?_, ?_, ?_, ?_⟩ <;> decide

/-- Events of the run goroutine (main.go lines 188-222) that concern
handle lifetime: opening each file, sending the result over errChan,
and closing each file. -/
inductive RunEvent
  | openIn
  | openOut
  | sendResult (ok : Bool)
  | closeIn
  | closeOut
deriving DecidableEq

/-- How openFiles (main.go lines 79-119) can turn out: the input open
fails; the input opens but the output (or temp) open fails; or both
open. -/
inductive OpenOutcome
  | inFail
  | outFail
  | bothOpened
deriving DecidableEq

/-- Event trace of run (main.go lines 188-222).  When openFiles returns
an error, run sends it and returns BEFORE the deferred close is
registered, so on the outFail path the already-opened input handle is
never closed.  When both opens succeed, the deferred function closes
both handles when run returns, which happens after the result is sent
over errChan on every path (processing error, in-place cleanup error,
or success, including the cancelled-early success). -/
def runTrace (o : OpenOutcome) (procOk inPlace cleanupOk : Bool) : List RunEvent :=
  match o with
  | OpenOutcome.inFail => [RunEvent.sendResult false]
  | OpenOutcome.outFail => [RunEvent.openIn, RunEvent.sendResult false]
  | OpenOutcome.bothOpened =>
      if procOk = false then
        [RunEvent.openIn, RunEvent.openOut, RunEvent.sendResult false,
          RunEvent.closeIn, RunEvent.closeOut]
      else if inPlace = true ∧ cleanupOk = false then
        [RunEvent.openIn, RunEvent.openOut, RunEvent.sendResult false,
          RunEvent.closeIn, RunEvent.closeOut]
      else
        [RunEvent.openIn, RunEvent.openOut, RunEvent.sendResult true,
          RunEvent.closeIn, RunEvent.closeOut]

/-- C8 counterexample: on the exit path where the output open fails after
the input file was opened, run sends its result and returns without
ever closing the input handle; and even on the successful path the
closes happen only after the result is sent, not before. -/
theorem c8_open_failure_leaks_input :
    (RunEvent.openIn ∈ runTrace OpenOutcome.outFail true false true
      ∧ RunEvent.closeIn ∉ runTrace OpenOutcome.outFail true false true)
    ∧ runTrace OpenOutcome.bothOpened true false true
        = [RunEvent.openIn, RunEvent.openOut, RunEvent.sendResult true,
            RunEvent.closeIn, RunEvent.closeOut] := by
  refine ⟨⟨?_, ?_⟩, ?_⟩ <;> decide

/-- C8 (amended): on every exit path reached after both files opened
successfully — success, processing error, in-place cleanup error, or
cancellation — both handles are closed by the time run returns, though
only after the result is sent; on the path where the output open fails
after the input opened, the input handle is not closed. -/
theorem c8_handles_closed_when_both_opened (procOk inPlace cleanupOk : Bool) :
    (∃ r : Bool,
      runTrace OpenOutcome.bothOpened procOk inPlace cleanupOk
        = [RunEvent.openIn, RunEvent.openOut, RunEvent.sendResult r,
            RunEvent.closeIn, RunEvent.closeOut])
    ∧ RunEvent.closeIn ∉ runTrace OpenOutcome.outFail procOk inPlace cleanupOk := by
  constructor
  · cases procOk <;> cases inPlace <;> cases cleanupOk <;> first
      | exact ⟨false, rfl⟩
      | exact ⟨true, rfl⟩
  · simp [runTrace]

end Csvclean
